import Mathlib

/-!
Verification of the memory-transformer training core.

Shallow embedding, in Lean 4, of the core of the `memory-transformer-pt4`
repository: the KV-cache operations of `src/model/modeling.py`, the input
validation of `LSWTModel.forward`, the `Minato` sign-momentum optimizer of
`src/training/minato.py`, and the schedule / optimizer-loading / DDP batch
loop of `src/training/trainer.py`.

Tensor values are modelled as nested lists (the sequence axis is the third
axis, matching the `[:, :, s, :]` indexing used by the code); machine floats
are modelled as exact rationals for the optimizer and exact reals for the
schedule.  Devices, autograd graphs and asynchronous transfers carry no
value-level content and are not modelled; `detach()` and `.to(device)` are
value-preserving and are embedded as the identity on values.
-/

namespace MemoryTransformer

/-! ## Python slice semantics

`xs[start:]` for a Python list/tensor axis: a negative `start` is counted
from the end, clamped at 0; a non-negative `start` is clamped at `len`. -/

/-- The Python slice `xs[start:]` on one axis: negative `start` counts from
the end (clamped to 0), non-negative `start` is clamped to the length. -/
def pySliceFrom (start : Int) (xs : List α) : List α :=
  let n : Int := xs.length
  let s : Int := if start < 0 then max (n + start) 0 else min start n
  xs.drop s.toNat

/-- A rank-4 tensor `(batch, heads, sequence, head_dim)` as nested lists of
rationals; only the value content matters for the cache claims. -/
abbrev Tensor4 := List (List (List (List ℚ)))

/-- The slice `kv[:, :, -trim:, :]`: slices the sequence axis (axis 2) of a rank-4
tensor, keeping every batch, head and head-dim entry. -/
def sliceSeqAxis (start : Int) (kv : Tensor4) : Tensor4 :=
  kv.map (fun batch => batch.map (fun heads => pySliceFrom start heads))

/-- Embeds `LSWTPreTrainedModel.trim_cache` (modeling.py lines 77–96): if `trim` is
not `None`, return `[ kv[:, :, -trim:, :] for kv in cache ]`; otherwise
return the cache unchanged.  Note `-0 == 0` in Python, so `trim = 0` keeps
the whole sequence axis ("Zero means no trim" per the docstring). -/
def trim_cache (cache : List Tensor4) (trim : Option Nat) : List Tensor4 :=
  match trim with
  | some t => cache.map (fun kv => sliceSeqAxis (-(t : Int)) kv)
  | none => cache

/-- Embeds `LSWTPreTrainedModel.cache_to` (modeling.py lines 98–129): `None` maps
to `None`; otherwise each per-layer tensor is detached, sliced with
`[:, :, -trim:, :]` and copied to `device` (detach and the device copy are
value-preserving, so only the slice appears here).  The `device` and
`non_blocking` arguments do not affect values. -/
def cache_to (cache : Option (List (List Tensor4))) (device : String)
    (trim : Nat) (nonBlocking : Bool) : Option (List (List Tensor4)) :=
  match cache with
  | none => none
  | some c =>
      some (c.map (fun layer => layer.map (fun kv => sliceSeqAxis (-(trim : Int)) kv)))

/-- Embeds `Trainer._load_cache` (trainer.py lines 100–102): one empty (absent)
cache slot per accumulation group. -/
def load_cache (batchGroups : Nat) : List (Option (List (List Tensor4))) :=
  (List.range batchGroups).map (fun _ => none)

/-- A rank-4 tensor has sequence length `L` when every sequence axis (the
list at depth 2) has length `L`. -/
def seqLen (kv : Tensor4) (L : Nat) : Prop :=
  ∀ batch ∈ kv, ∀ heads ∈ batch, heads.length = L

/-! ## `LSWTModel.forward` input validation -/

/-- Input validation and embedding selection of `LSWTModel.forward`
(modeling.py lines 215–225): supplying both `input_ids` and
`inputs_embeds`, or neither, raises `ValueError`; otherwise token ids are
embedded with the input embedding and pre-embedded inputs are used as
given. -/
def lswtForwardInputs (embed : α → β) : Option α → Option β → Except String β
  | some _, some _ =>
      Except.error "You cannot specify both input_ids and inputs_embeds at the same time"
  | none, none =>
      Except.error "You have to specify either input_ids or inputs_embeds"
  | some ids, none => Except.ok (embed ids)
  | none, some e => Except.ok e

/-! ## The Minato sign-momentum optimizer (minato.py) -/

/-- Mutable per-parameter values touched by `_single_tensor_minato`: the
parameter, its momentum (`exp_avg`) and the step-count tensor. -/
structure MinatoState where
  param : ℚ
  expAvg : ℚ
  stepCount : ℚ
  deriving DecidableEq, Repr

/-- Embeds `torch.Tensor.sign` on a real scalar: `-1`, `0` or `1`. -/
def torchSign (x : ℚ) : ℚ :=
  if x < 0 then -1 else if x = 0 then 0 else 1

/-- The clamp term `(exp_avg.abs() / (0.0 + 1e-15)).clamp(None, 1)` of
minato.py lines 145 and 151. -/
def minatoClampTerm (expAvg : ℚ) : ℚ :=
  min (|expAvg| / (0 + 1 / 10 ^ 15)) 1

/-- Models the Python attribute call `x.neg()` on a built-in `float`
(minato.py line 143, `step_size_neg = step_size.neg()`, flagged there with
`# type: ignore`): a Python float has no `neg` method, so the call raises
`AttributeError`.  The learning rate reaches `_single_tensor_minato` as a
Python float: the `minato` driver declares `lr: float`, the `Minato`
constructor default is the float `1e-4`, and `Trainer.train_optim_step`
stores `self.get_schedule() * self.train_config.lr_max` (a float) into the
parameter group. -/
def floatNeg (x : ℚ) : Except String ℚ :=
  Except.error "AttributeError: float object has no attribute neg"

/-- One parameter update of `_single_tensor_minato` (minato.py lines
118–152) on a real-valued scalar parameter (the complex case is viewed as
real pairs and follows the same rule): negate the gradient when
`maximize`, increment the step tensor, apply decoupled weight decay to the
parameter, update the momentum, then take the clamped sign step.  The
capturable branch (which additionally asserts CUDA residency — devices are
not modelled) computes the negated step size with `step_size.neg()` on the
float `lr`; the eager branch uses `-lr`.  `addcmul_` adds
`value * tensor1 * tensor2` to the parameter. -/
def singleTensorMinato (beta lr weight_decay : ℚ) (maximize capturable : Bool)
    (grad : ℚ) (s : MinatoState) : Except String MinatoState :=
  let g := if maximize then -grad else grad
  let step_t := s.stepCount + 1
  let param := s.param * (1 - lr * weight_decay)
  let exp_avg := s.expAvg * beta + g * (1 - beta)
  if capturable then
    match floatNeg lr with
    | Except.error e => Except.error e
    | Except.ok step_size_neg =>
        Except.ok ⟨param + step_size_neg * torchSign exp_avg * minatoClampTerm exp_avg,
          exp_avg, step_t⟩
  else
    let step_size_neg := -lr
    Except.ok ⟨param + step_size_neg * torchSign exp_avg * minatoClampTerm exp_avg,
      exp_avg, step_t⟩

/-- The lazily created per-parameter optimizer state of `Minato.step`
(minato.py lines 59–62): a step counter starting at `0.` and a zero
momentum buffer, created on the first gradient seen for the parameter. -/
structure LazyState where
  expAvg : ℚ
  stepCount : ℚ
  deriving DecidableEq, Repr

/-- Step count carried by an optional per-parameter state: absent state
counts as zero steps. -/
def stateStepCount (st : Option LazyState) : ℚ :=
  match st with
  | none => 0
  | some s => s.stepCount

/-- One `Minato.step` call as seen by a single (dense-gradient) parameter
(minato.py lines 49–75): a parameter whose gradient is `None` is skipped
(`continue`) and its state is untouched; otherwise its state is created if
absent (step `0.`, zero `exp_avg`) and the eager per-tensor update runs. -/
def minatoParamStep (beta lr weight_decay : ℚ) (maximize : Bool)
    (g : Option ℚ) (p : ℚ) (st : Option LazyState) :
    Except String (ℚ × Option LazyState) :=
  match g with
  | none => Except.ok (p, st)
  | some grad =>
      let s0 := st.getD ⟨0, 0⟩
      match singleTensorMinato beta lr weight_decay maximize false grad
          ⟨p, s0.expAvg, s0.stepCount⟩ with
      | Except.error e => Except.error e
      | Except.ok s1 => Except.ok (s1.param, some ⟨s1.expAvg, s1.stepCount⟩)

/-- Iterated `Minato.step` calls for one parameter: entry `i` of the
gradient list is the gradient (or `None`) the parameter carried in the
`i`-th call. -/
def minatoParamRun (beta lr weight_decay : ℚ) (maximize : Bool) :
    List (Option ℚ) → ℚ × Option LazyState → Except String (ℚ × Option LazyState)
  | [], ps => Except.ok ps
  | g :: gs, (p, st) =>
      match minatoParamStep beta lr weight_decay maximize g p st with
      | Except.error e => Except.error e
      | Except.ok ps1 => minatoParamRun beta lr weight_decay maximize gs ps1

/-! ## Optimizer resolution at Trainer construction (trainer.py) -/

/-- The optimizer kinds recognized by `Trainer._load_optimizer`. -/
inductive OptimizerChoice
  | minato
  | adamW
  | laProp
  deriving DecidableEq, Repr

/-- Keyword-parameter names accepted by `Minato.__init__` (minato.py lines
9–11): `params`, `lr`, `beta`, `weight_decay` and the keyword-only
`maximize` and `capturable`. -/
def minatoInitKeywords : List String :=
  ["params", "lr", "beta", "weight_decay", "maximize", "capturable"]

/-- Keyword arguments passed to the `Minato` constructor by
`Trainer._load_optimizer` (trainer.py lines 105–113). -/
def trainerMinatoCallKeywords : List String :=
  ["params", "lr", "betas", "eps", "rho", "weight_decay"]

/-- Python keyword binding: a call raises `TypeError` when some passed
keyword is not among the parameter names of the callee; otherwise the
callee body runs. -/
def pyKwCall (accepted passed : List String) (body : Except String α) :
    Except String α :=
  match passed.find? (fun k => !accepted.contains k) with
  | some k => Except.error ("TypeError: unexpected keyword argument " ++ k)
  | none => body

/-- Hyperparameter validation of `Minato.__init__` (minato.py lines
12–21): `lr ≥ 0`, `0 ≤ beta < 1`, `weight_decay ≥ 0`, else `ValueError`. -/
def minatoInitBody (lr beta weight_decay : ℚ) : Except String OptimizerChoice :=
  if ¬ 0 ≤ lr then Except.error "ValueError: Invalid learning rate"
  else if ¬ (0 ≤ beta ∧ beta < 1) then Except.error "ValueError: Invalid beta parameter"
  else if ¬ 0 ≤ weight_decay then Except.error "ValueError: Invalid weight_decay value"
  else Except.ok OptimizerChoice.minato

/-- Modelled from the spec: `torch.optim.AdamW` is an external collaborator
(out of scope per the spec); its constructor accepts the keywords used at
trainer.py lines 116–123 and constructs the optimizer. -/
def adamWConstruct : Except String OptimizerChoice :=
  Except.ok OptimizerChoice.adamW

/-- Modelled from the spec: the `LaProp` optimizer is imported from
`optimizer.laprop`, whose source is not among the given files; per the
spec it is a recognized optimizer kind whose construction succeeds at the
keywords used at trainer.py lines 126–132. -/
def laPropConstruct : Except String OptimizerChoice :=
  Except.ok OptimizerChoice.laProp

/-- Embeds `Trainer._load_optimizer` (trainer.py lines 104–134): dispatch on the
configured optimizer name.  The `Minato` branch calls
`Minato(params=…, lr=0.0, betas=…, eps=…, rho=…, weight_decay=…)`, whose
keywords are bound against `Minato.__init__` before its validation body
could run (the bound values would be `lr = 0.0`, the default
`beta = 0.9` and the configured weight decay, written here as the Minato
default `0.2`); an unrecognized name raises `ValueError`. -/
def load_optimizer (optimizerName : String) : Except String OptimizerChoice :=
  if optimizerName = "Minato" then
    pyKwCall minatoInitKeywords trainerMinatoCallKeywords
      (minatoInitBody 0 (9 / 10) (2 / 10))
  else if optimizerName = "AdamW" then adamWConstruct
  else if optimizerName = "LaProp" then laPropConstruct
  else Except.error "ValueError: Invalid optimizer"

/-! ## Learning-rate schedule (trainer.py lines 199–217) -/

/-- The clamped cooldown progress of `Trainer.get_schedule` (trainer.py
line 213): `min(max(tokens_seen - warmup_tokens, 0.0) /
(lr_cooldown_tokens - warmup_tokens), 1.0)` with
`tokens_seen = step * batch_size * length_sequence` and
`warmup_tokens = lr_warmup_steps * batch_size * length_sequence`. -/
noncomputable def cooldownProgress (warmupSteps batchSize seqLength : ℕ)
    (cooldownTokens : ℝ) (optStep : ℕ) : ℝ :=
  min (max ((optStep : ℝ) * batchSize * seqLength
      - (warmupSteps : ℝ) * batchSize * seqLength) 0
    / (cooldownTokens - (warmupSteps : ℝ) * batchSize * seqLength)) 1

/-- The cooldown factor of `Trainer.get_schedule` (trainer.py lines
214–215): `cos(progress * π) * 0.5 + 0.5`, rescaled into
`[lr_cooldown_ratio, 1]`. -/
noncomputable def cooldownFactor (warmupSteps batchSize seqLength : ℕ)
    (cooldownTokens floorRat : ℝ) (optStep : ℕ) : ℝ :=
  (Real.cos (cooldownProgress warmupSteps batchSize seqLength cooldownTokens optStep
      * Real.pi) * 0.5 + 0.5) * (1 - floorRat) + floorRat

/-- Embeds `Trainer.get_schedule` (trainer.py lines 199–217):
`min(warmup_ratio, cooldown_ratio)` with
`warmup_ratio = min(step / lr_warmup_steps, 1.0)`. -/
noncomputable def get_schedule (warmupSteps batchSize seqLength : ℕ)
    (cooldownTokens floorRat : ℝ) (optStep : ℕ) : ℝ :=
  min (min ((optStep : ℝ) / (warmupSteps : ℝ)) 1)
    (cooldownFactor warmupSteps batchSize seqLength cooldownTokens floorRat optStep)

/-! ## Distributed batch step (trainer.py lines 450–472) -/

/-- The cross-rank gradient-sync flag set at the top of every
accumulation-group iteration of `TrainerDDP.train_batch_step` (trainer.py
line 459): `self.model.require_backward_grad_sync =
(idx == self.batch_groups - 1)`.  Entry `idx` of this list is the flag in
force while group `idx` runs its forward/backward sub-step. -/
def ddpSyncFlags (batchGroups : Nat) : List Bool :=
  (List.range batchGroups).map (fun idx => idx == batchGroups - 1)

/-! ## Theorems -/

/-- C8: the forward pass raises exactly when both of `input_ids` and
`inputs_embeds` are supplied or neither is; with exactly one of the two it
proceeds without this error. -/
theorem lswtForward_error_iff {α β : Type} (embed : α → β)
    (ids : Option α) (embeds : Option β) :
    (∃ msg, lswtForwardInputs embed ids embeds = Except.error msg) ↔
      ((ids.isSome = true ∧ embeds.isSome = true) ∨
        (ids.isNone = true ∧ embeds.isNone = true)) := by
  cases ids <;> cases embeds <;> simp [lswtForwardInputs]

/-- C10: `cache_to` maps an absent cache to `None` for every device, trim
and non-blocking flag, and every accumulation-group slot created by
`Trainer._load_cache` starts absent, so restoring an unpopulated slot is a
well-defined no-op. -/
theorem cache_to_absent :
    (∀ (device : String) (trim : Nat) (nb : Bool),
      cache_to none device trim nb = none) ∧
    (∀ G : Nat, ∀ slot ∈ load_cache G, slot = none) ∧
    (∀ G : Nat, ∀ slot ∈ load_cache G,
      ∀ (device : String) (trim : Nat) (nb : Bool),
        cache_to slot device trim nb = none) := by
  have hslot : ∀ G : Nat, ∀ slot ∈ load_cache G, slot = none := by
    intro G slot h
    simp only [load_cache, List.mem_map] at h
    obtain ⟨_, _, h⟩ := h
    exact h.symm
  exact ⟨fun _ _ _ => rfl, hslot,
    fun G slot h device trim nb => by rw [hslot G slot h]; rfl⟩

theorem cache_to_absent_witness :
    (none ∈ load_cache 1) ∧
      cache_to (none : Option (List (List Tensor4))) "cuda" 0 true = none :=
  ⟨by simp [load_cache], cache_to_absent.2.2 1 none (by simp [load_cache]) "cuda" 0 true⟩

/-- C9: in the distributed batch step the gradient-sync flag in force
during accumulation group `idx` is enabled exactly when `idx` is the last
group `batch_groups - 1`, and is disabled for every earlier group. -/
theorem ddpSyncFlags_spec :
    (∀ G idx : Nat, idx < G →
      ((ddpSyncFlags G).getD idx false = true ↔ idx = G - 1)) ∧
    (∀ G idx : Nat, idx < G - 1 → (ddpSyncFlags G).getD idx false = false) := by
  have h1 : ∀ G idx : Nat, idx < G →
      ((ddpSyncFlags G).getD idx false = true ↔ idx = G - 1) := by
    intro G idx h
    simp [ddpSyncFlags, List.getD_eq_getElem?_getD, List.getElem?_map,
      List.getElem?_range, h]
  refine ⟨h1, fun G idx h => ?_⟩
  have hlt : idx < G := by omega
  have hne : ¬ idx = G - 1 := by omega
  rcases hb : (ddpSyncFlags G).getD idx false with _ | _
  · rfl
  · exact absurd ((h1 G idx hlt).mp hb) hne

theorem ddpSyncFlags_spec_witness :
    (2 < 3 ∧ ((ddpSyncFlags 3).getD 2 false = true ↔ 2 = 3 - 1)) ∧
      (1 < 3 - 1 ∧ (ddpSyncFlags 3).getD 1 false = false) :=
  ⟨⟨by decide, ddpSyncFlags_spec.1 3 2 (by decide)⟩,
   ⟨by decide, ddpSyncFlags_spec.2 3 1 (by decide)⟩⟩

/-- C5: with zero initial momentum, gradient `1`, `beta = 0.9`,
`lr = 0.1`, `weight_decay = 0`, one eager update produces
`exp_avg = 0.1`, a clamp term of `1`, and decreases the parameter by
exactly `0.1`. -/
theorem minato_scenario (p t : ℚ) :
    singleTensorMinato (9/10) (1/10) 0 false false 1 ⟨p, 0, t⟩ =
      Except.ok ⟨p - 1/10, 1/10, t + 1⟩ ∧
    minatoClampTerm (1/10) = 1 := by
  have hclamp : minatoClampTerm (1/10) = 1 := by
    unfold minatoClampTerm
    have habs : |(1:ℚ)/10| = 1/10 := abs_of_pos (by norm_num)
    rw [habs, min_eq_right (by norm_num)]
  refine ⟨?_, hclamp⟩
  simp only [singleTensorMinato, Bool.false_eq_true, if_false]
  norm_num [torchSign, hclamp]
  ring

/-- C4: the eager update applies decoupled weight decay to the parameter
before the momentum update and before the sign step of the same call, and
with zero gradient and zero momentum one update is exactly
`param * (1 - lr * weight_decay)`. -/
theorem minato_weight_decay_order (beta lr wd grad : ℚ) (mx : Bool)
    (s : MinatoState) :
    (singleTensorMinato beta lr wd mx false grad s =
      Except.ok ⟨s.param * (1 - lr * wd)
          - lr * torchSign (s.expAvg * beta + (if mx then -grad else grad) * (1 - beta))
            * minatoClampTerm (s.expAvg * beta + (if mx then -grad else grad) * (1 - beta)),
        s.expAvg * beta + (if mx then -grad else grad) * (1 - beta),
        s.stepCount + 1⟩) ∧
    (grad = 0 → s.expAvg = 0 →
      singleTensorMinato beta lr wd mx false grad s =
        Except.ok ⟨s.param * (1 - lr * wd), 0, s.stepCount + 1⟩) := by
  have h1 : singleTensorMinato beta lr wd mx false grad s =
      Except.ok ⟨s.param * (1 - lr * wd)
          - lr * torchSign (s.expAvg * beta + (if mx then -grad else grad) * (1 - beta))
            * minatoClampTerm (s.expAvg * beta + (if mx then -grad else grad) * (1 - beta)),
        s.expAvg * beta + (if mx then -grad else grad) * (1 - beta),
        s.stepCount + 1⟩ := by
    simp only [singleTensorMinato, Bool.false_eq_true, if_false,
      Except.ok.injEq, MinatoState.mk.injEq]
    refine ⟨by ring, by trivial, by trivial⟩
  refine ⟨h1, fun hg hm => ?_⟩
  subst hg
  rw [h1, hm]
  cases mx <;> simp [torchSign, minatoClampTerm]

theorem minato_weight_decay_order_witness :
    ((0:ℚ) = 0) ∧
      singleTensorMinato (1/2) (1/10) 2 false false 0 ⟨3, 0, 5⟩ =
        Except.ok ⟨3 * (1 - (1/10) * 2), 0, 5 + 1⟩ :=
  ⟨rfl, (minato_weight_decay_order (1/2) (1/10) 2 0 false ⟨3, 0, 5⟩).2 rfl rfl⟩

/-- C3: the capturable branch evaluates `step_size.neg()` on the Python
float `lr` and raises `AttributeError` instead of producing the values the
eager branch produces on the same inputs. -/
theorem minato_capturable_crashes :
    singleTensorMinato (9/10) (1/10) 0 false true 1 ⟨1, 0, 0⟩ =
      Except.error "AttributeError: float object has no attribute neg" ∧
    singleTensorMinato (9/10) (1/10) 0 false false 1 ⟨1, 0, 0⟩ =
      Except.ok ⟨9/10, 1/10, 1⟩ := by
  constructor
  · rfl
  · have hclamp : minatoClampTerm (1/10) = 1 := by
      unfold minatoClampTerm
      have habs : |(1:ℚ)/10| = 1/10 := abs_of_pos (by norm_num)
      rw [habs, min_eq_right (by norm_num)]
    simp only [singleTensorMinato, Bool.false_eq_true, if_false]
    norm_num [torchSign, hclamp]

/-- The eager per-parameter step always succeeds and advances the step
counter by one; a skipped (`None`-gradient) parameter is untouched. -/
theorem minatoParamStep_ok (beta lr wd : ℚ) (mx : Bool) (g p : ℚ)
    (st : Option LazyState) :
    ∃ q st1, minatoParamStep beta lr wd mx (some g) p st = Except.ok (q, some st1) ∧
      st1.stepCount = stateStepCount st + 1 := by
  cases st with
  | none => exact ⟨_, _, rfl, by simp [stateStepCount, singleTensorMinato]⟩
  | some s => exact ⟨_, _, rfl, by simp [stateStepCount, singleTensorMinato]⟩

/-- Invariant for iterated calls: with only dense (`some`) gradients, the
run succeeds and adds the number of calls to the step count. -/
theorem minatoParamRun_count (beta lr wd : ℚ) (mx : Bool) :
    ∀ (gs : List (Option ℚ)), (∀ g ∈ gs, g.isSome = true) →
      ∀ (p : ℚ) (st : Option LazyState),
        ∃ q st1, minatoParamRun beta lr wd mx gs (p, st) = Except.ok (q, st1) ∧
          stateStepCount st1 = stateStepCount st + gs.length := by
  intro gs
  induction gs with
  | nil => exact fun _ p st => ⟨p, st, rfl, by simp⟩
  | cons g gs ih =>
      intro hall p st
      obtain ⟨g0, rfl⟩ : ∃ g0, g = some g0 :=
        Option.isSome_iff_exists.mp (hall g (by simp))
      obtain ⟨q, st1, hstep, hcount⟩ := minatoParamStep_ok beta lr wd mx g0 p st
      obtain ⟨q2, st2, hrun, hcount2⟩ :=
        ih (fun x hx => hall x (by simp [hx])) q (some st1)
      refine ⟨q2, st2, ?_, ?_⟩
      · simp only [minatoParamRun, hstep]
        exact hrun
      · rw [hcount2]
        simp only [stateStepCount] at hcount ⊢
        rw [hcount, List.length_cons]
        push_cast
        ring

/-- C7: a parameter skipped in a call (gradient `None`) keeps its state;
a parameter with a dense gradient gets its state created lazily on first
touch and its step counter advanced by exactly one; hence after `n` calls
in each of which the parameter carried a gradient, the counter equals
exactly `n`. -/
theorem minato_step_counter (beta lr wd : ℚ) (mx : Bool) :
    (∀ (p : ℚ) (st : Option LazyState),
      minatoParamStep beta lr wd mx none p st = Except.ok (p, st)) ∧
    (∀ (g p : ℚ) (st : Option LazyState),
      ∃ q st1, minatoParamStep beta lr wd mx (some g) p st = Except.ok (q, some st1) ∧
        st1.stepCount = stateStepCount st + 1) ∧
    (∀ (gs : List (Option ℚ)), (∀ g ∈ gs, g.isSome = true) → ∀ p : ℚ,
      ∃ q st1, minatoParamRun beta lr wd mx gs (p, none) = Except.ok (q, st1) ∧
        stateStepCount st1 = gs.length) := by
  refine ⟨fun p st => rfl, minatoParamStep_ok beta lr wd mx, fun gs hall p => ?_⟩
  obtain ⟨q, st1, hrun, hcount⟩ := minatoParamRun_count beta lr wd mx gs hall p none
  refine ⟨q, st1, hrun, ?_⟩
  rw [hcount]
  simp [stateStepCount]

theorem minato_step_counter_witness :
    (∀ g ∈ [some (1:ℚ), some 0], g.isSome = true) ∧
      (∃ q st1,
        minatoParamRun (9/10) (1/10) 0 false [some (1:ℚ), some 0] (5, none) =
          Except.ok (q, st1) ∧
        stateStepCount st1 = (([some (1:ℚ), some 0] : List (Option ℚ)).length : ℚ)) :=
  ⟨by decide,
   (minato_step_counter (9/10) (1/10) 0 false).2.2 [some 1, some 0] (by decide) 5⟩

/-- C2: resolving the configured optimizer kind at Trainer construction.
The recognized name `Minato` does not construct: its keyword arguments are
rejected by `Minato.__init__` with a `TypeError`; `AdamW` and `LaProp`
construct; an unrecognized name raises `ValueError`. -/
theorem load_optimizer_spec :
    load_optimizer "Minato" =
      Except.error "TypeError: unexpected keyword argument betas" ∧
    load_optimizer "AdamW" = Except.ok OptimizerChoice.adamW ∧
    load_optimizer "LaProp" = Except.ok OptimizerChoice.laProp ∧
    (∀ nm : String, nm ≠ "Minato" → nm ≠ "AdamW" → nm ≠ "LaProp" →
      load_optimizer nm = Except.error "ValueError: Invalid optimizer") := by
  refine ⟨rfl, rfl, rfl, fun nm h1 h2 h3 => ?_⟩
  simp [load_optimizer, h1, h2, h3]

theorem load_optimizer_spec_witness :
    ("SGD" ≠ "Minato" ∧ "SGD" ≠ "AdamW" ∧ "SGD" ≠ "LaProp") ∧
      load_optimizer "SGD" = Except.error "ValueError: Invalid optimizer" :=
  ⟨⟨by decide, by decide, by decide⟩,
   load_optimizer_spec.2.2.2 "SGD" (by decide) (by decide) (by decide)⟩

/-- The slice `xs[0:]` keeps the whole list. -/
theorem pySliceFrom_zero (xs : List α) : pySliceFrom 0 xs = xs := by
  simp [pySliceFrom]

/-- The slice `xs[-k:]` for `k ≥ 1` keeps the last `k` elements (all of them when
`k` exceeds the length). -/
theorem pySliceFrom_neg (k : Nat) (hk : 1 ≤ k) (xs : List α) :
    pySliceFrom (-(k : Int)) xs = xs.drop (xs.length - k) := by
  unfold pySliceFrom
  have hneg : (-(k : Int)) < 0 := by omega
  simp only [if_pos hneg]
  congr 1
  omega

/-- Slicing the sequence axis from 0 is the identity. -/
theorem sliceSeqAxis_zero (kv : Tensor4) : sliceSeqAxis 0 kv = kv := by
  simp [sliceSeqAxis, pySliceFrom_zero]

/-- C1 counterexample: on a cache of sequence length 1, `trim_cache` with
`keep = 0` returns the cache unchanged, not an empty cache. -/
theorem trim_cache_zero_not_empty :
    trim_cache [[[[[(5:ℚ)]]]]] (some 0) = [[[[[(5:ℚ)]]]]] ∧
    ([[[[[(5:ℚ)]]]]] : List Tensor4) ≠ [[[[]]]] := by
  refine ⟨?_, by decide⟩
  simp [trim_cache, sliceSeqAxis_zero]

/-- C1 (amended): `trim_cache` with `keep = None` and with `keep = 0` both
return the cache unchanged; for `1 ≤ k ≤ L` on a cache of sequence length
`L` it returns tensors of sequence length exactly `k` whose values are the
last `k` positions of the input. -/
theorem trim_cache_spec (cache : List Tensor4) (L k : Nat)
    (hk1 : 1 ≤ k) (hkL : k ≤ L) (hL : ∀ kv ∈ cache, seqLen kv L) :
    trim_cache cache none = cache ∧
    trim_cache cache (some 0) = cache ∧
    trim_cache cache (some k) =
      cache.map (fun kv => kv.map (fun batch =>
        batch.map (fun heads => heads.drop (L - k)))) ∧
    (∀ kv1 ∈ trim_cache cache (some k), seqLen kv1 k) := by
  have heq : trim_cache cache (some k) =
      cache.map (fun kv => kv.map (fun batch =>
        batch.map (fun heads => heads.drop (L - k)))) := by
    simp only [trim_cache]
    refine List.map_congr_left (fun kv hkv => ?_)
    simp only [sliceSeqAxis]
    refine List.map_congr_left (fun batch hbatch => ?_)
    refine List.map_congr_left (fun heads hheads => ?_)
    rw [pySliceFrom_neg k hk1, hL kv hkv batch hbatch heads hheads]
  refine ⟨rfl, ?_, heq, ?_⟩
  · simp [trim_cache, sliceSeqAxis_zero]
  · intro kv1 hkv1
    rw [heq] at hkv1
    obtain ⟨kv, hkv, rfl⟩ := List.mem_map.mp hkv1
    intro batch hbatch heads hheads
    obtain ⟨batch0, hbatch0, rfl⟩ := List.mem_map.mp hbatch
    obtain ⟨heads0, hheads0, rfl⟩ := List.mem_map.mp hheads
    rw [List.length_drop, hL kv hkv batch0 hbatch0 heads0 hheads0]
    omega

theorem trim_cache_spec_witness :
    (1 ≤ 1 ∧ 1 ≤ 2 ∧
      (∀ kv ∈ ([[[[[(1:ℚ)], [2]]]]] : List Tensor4), seqLen kv 2)) ∧
    (∀ kv1 ∈ trim_cache [[[[[(1:ℚ)], [2]]]]] (some 1), seqLen kv1 1) :=
  ⟨⟨le_refl 1, by omega, by unfold seqLen; decide⟩,
   (trim_cache_spec [[[[[(1:ℚ)], [2]]]]] 2 1 (le_refl 1) (by omega)
     (by unfold seqLen; decide)).2.2.2⟩

/-- The clamped cooldown progress lies in `[0, 1]` once the cooldown token
budget exceeds the warmup tokens. -/
theorem cooldownProgress_mem (W B S : ℕ) (CT : ℝ)
    (hCT : (W : ℝ) * B * S < CT) (n : ℕ) :
    0 ≤ cooldownProgress W B S CT n ∧ cooldownProgress W B S CT n ≤ 1 := by
  unfold cooldownProgress
  have hd : (0:ℝ) < CT - (W : ℝ) * B * S := by linarith
  constructor
  · exact le_min (div_nonneg (le_max_right _ _) hd.le) zero_le_one
  · exact min_le_right _ _

/-- Cooldown progress is non-decreasing in the step. -/
theorem cooldownProgress_mono (W B S : ℕ) (CT : ℝ)
    (hCT : (W : ℝ) * B * S < CT) {m n : ℕ} (h : m ≤ n) :
    cooldownProgress W B S CT m ≤ cooldownProgress W B S CT n := by
  unfold cooldownProgress
  have hd : (0:ℝ) < CT - (W : ℝ) * B * S := by linarith
  have hmn : (m : ℝ) ≤ (n : ℝ) := by exact_mod_cast h
  have hmul : (m : ℝ) * B * S ≤ (n : ℝ) * B * S :=
    mul_le_mul_of_nonneg_right
      (mul_le_mul_of_nonneg_right hmn (Nat.cast_nonneg B)) (Nat.cast_nonneg S)
  refine min_le_min ((div_le_div_iff_of_pos_right hd).mpr ?_) le_rfl
  exact max_le_max (sub_le_sub_right hmul _) le_rfl

/-- Within the warmup window the cooldown progress is zero. -/
theorem cooldownProgress_warmup (W B S : ℕ) (CT : ℝ)
    (hCT : (W : ℝ) * B * S < CT) {n : ℕ} (h : n ≤ W) :
    cooldownProgress W B S CT n = 0 := by
  unfold cooldownProgress
  have hnW : (n : ℝ) ≤ (W : ℝ) := by exact_mod_cast h
  have hBS : (0:ℝ) ≤ (B : ℝ) * S :=
    mul_nonneg (Nat.cast_nonneg B) (Nat.cast_nonneg S)
  have h1 : (n : ℝ) * B * S - (W : ℝ) * B * S ≤ 0 := by nlinarith
  rw [max_eq_right h1, zero_div]
  exact min_eq_left zero_le_one

/-- At and beyond the cooldown token budget the progress saturates at 1. -/
theorem cooldownProgress_end (W B S : ℕ) (CT : ℝ)
    (hCT : (W : ℝ) * B * S < CT) {n : ℕ} (h : CT ≤ (n : ℝ) * B * S) :
    cooldownProgress W B S CT n = 1 := by
  unfold cooldownProgress
  have hd : (0:ℝ) < CT - (W : ℝ) * B * S := by linarith
  have h1 : CT - (W : ℝ) * B * S ≤ (n : ℝ) * B * S - (W : ℝ) * B * S := by linarith
  rw [max_eq_left (by linarith)]
  exact min_eq_right ((one_le_div hd).mpr h1)

/-- The rescaled cosine cooldown factor lies in `[floor, 1]`. -/
theorem cooldownFactor_mem (W B S : ℕ) (CT f : ℝ)
    (hCT : (W : ℝ) * B * S < CT) (hf0 : 0 ≤ f) (hf1 : f ≤ 1) (n : ℕ) :
    f ≤ cooldownFactor W B S CT f n ∧ cooldownFactor W B S CT f n ≤ 1 := by
  unfold cooldownFactor
  obtain ⟨hp0, hp1⟩ := cooldownProgress_mem W B S CT hCT n
  set p := cooldownProgress W B S CT n
  have hc1 : Real.cos (p * Real.pi) ≤ 1 := Real.cos_le_one _
  have hc2 : -1 ≤ Real.cos (p * Real.pi) := Real.neg_one_le_cos _
  have hcos0 : (0:ℝ) ≤ Real.cos (p * Real.pi) * 0.5 + 0.5 := by linarith
  have hcos1 : Real.cos (p * Real.pi) * 0.5 + 0.5 ≤ 1 := by linarith
  constructor
  · nlinarith [mul_nonneg hcos0 (by linarith : (0:ℝ) ≤ 1 - f)]
  · nlinarith [mul_nonneg (by linarith : (0:ℝ) ≤ 1 - (Real.cos (p * Real.pi) * 0.5 + 0.5))
      (by linarith : (0:ℝ) ≤ 1 - f)]

/-- Within the warmup window the cooldown factor equals 1. -/
theorem cooldownFactor_warmup (W B S : ℕ) (CT f : ℝ)
    (hCT : (W : ℝ) * B * S < CT) {n : ℕ} (h : n ≤ W) :
    cooldownFactor W B S CT f n = 1 := by
  unfold cooldownFactor
  rw [cooldownProgress_warmup W B S CT hCT h, zero_mul, Real.cos_zero]
  ring

/-- At and beyond the cooldown token budget the cooldown factor equals the
floor. -/
theorem cooldownFactor_end (W B S : ℕ) (CT f : ℝ)
    (hCT : (W : ℝ) * B * S < CT) {n : ℕ} (h : CT ≤ (n : ℝ) * B * S) :
    cooldownFactor W B S CT f n = f := by
  unfold cooldownFactor
  rw [cooldownProgress_end W B S CT hCT h, one_mul, Real.cos_pi]
  ring

/-- The cooldown factor is non-increasing in the step. -/
theorem cooldownFactor_antitone (W B S : ℕ) (CT f : ℝ)
    (hCT : (W : ℝ) * B * S < CT) (hf1 : f ≤ 1) {m n : ℕ} (h : m ≤ n) :
    cooldownFactor W B S CT f n ≤ cooldownFactor W B S CT f m := by
  unfold cooldownFactor
  obtain ⟨hm0, hm1⟩ := cooldownProgress_mem W B S CT hCT m
  obtain ⟨hn0, hn1⟩ := cooldownProgress_mem W B S CT hCT n
  have hmono := cooldownProgress_mono W B S CT hCT h
  have hpi : (0:ℝ) ≤ Real.pi := Real.pi_nonneg
  have hcos : Real.cos (cooldownProgress W B S CT n * Real.pi) ≤
      Real.cos (cooldownProgress W B S CT m * Real.pi) := by
    refine Real.strictAntiOn_cos.antitoneOn
      ⟨mul_nonneg hm0 hpi, ?_⟩ ⟨mul_nonneg hn0 hpi, ?_⟩
      (mul_le_mul_of_nonneg_right hmono hpi)
    · calc cooldownProgress W B S CT m * Real.pi ≤ 1 * Real.pi :=
          mul_le_mul_of_nonneg_right hm1 hpi
      _ = Real.pi := one_mul _
    · calc cooldownProgress W B S CT n * Real.pi ≤ 1 * Real.pi :=
          mul_le_mul_of_nonneg_right hn1 hpi
      _ = Real.pi := one_mul _
  have h1f : (0:ℝ) ≤ 1 - f := by linarith
  nlinarith [mul_le_mul_of_nonneg_right (by linarith :
    Real.cos (cooldownProgress W B S CT n * Real.pi) * 0.5 + 0.5 ≤
      Real.cos (cooldownProgress W B S CT m * Real.pi) * 0.5 + 0.5) h1f]

/-- C6: under `0 ≤ floor ≤ 1`, at least one warmup step and a cooldown
token budget strictly beyond the warmup tokens, `get_schedule` returns
`min(warmup_ratio, cooldown_ratio)` with the cosine cooldown rescaled into
`[floor, 1]`; the result lies in `[0, 1]`, is non-decreasing on
`[0, warmup_steps]`, is non-increasing beyond the warmup window, and
equals the floor at and beyond the end of the cooldown window. -/
theorem get_schedule_spec (W B S : ℕ) (CT f : ℝ)
    (hW : 1 ≤ W) (hB : 1 ≤ B) (hS : 1 ≤ S)
    (hf0 : 0 ≤ f) (hf1 : f ≤ 1) (hCT : (W : ℝ) * B * S < CT) :
    (∀ n : ℕ, get_schedule W B S CT f n =
        min (min ((n : ℝ) / W) 1) (cooldownFactor W B S CT f n) ∧
      f ≤ cooldownFactor W B S CT f n ∧ cooldownFactor W B S CT f n ≤ 1) ∧
    (∀ n : ℕ, 0 ≤ get_schedule W B S CT f n ∧ get_schedule W B S CT f n ≤ 1) ∧
    (∀ m n : ℕ, m ≤ n → n ≤ W →
      get_schedule W B S CT f m ≤ get_schedule W B S CT f n) ∧
    (∀ m n : ℕ, W ≤ m → m ≤ n →
      get_schedule W B S CT f n ≤ get_schedule W B S CT f m) ∧
    (∀ n : ℕ, CT ≤ (n : ℝ) * B * S → get_schedule W B S CT f n = f) := by
  have hWpos : (0:ℝ) < (W : ℝ) := by
    have : 0 < W := hW
    exact_mod_cast this
  have hBS : (0:ℝ) < (B : ℝ) * S := by
    have hB0 : (0:ℝ) < (B : ℝ) := by exact_mod_cast hB
    have hS0 : (0:ℝ) < (S : ℝ) := by exact_mod_cast hS
    exact mul_pos hB0 hS0
  refine ⟨fun n => ⟨rfl, cooldownFactor_mem W B S CT f hCT hf0 hf1 n⟩,
    fun n => ?_, fun m n hmn hnW => ?_, fun m n hWm hmn => ?_, fun n hn => ?_⟩
  · obtain ⟨hcf0, hcf1⟩ := cooldownFactor_mem W B S CT f hCT hf0 hf1 n
    unfold get_schedule
    constructor
    · exact le_min (le_min (div_nonneg (Nat.cast_nonneg n) hWpos.le) zero_le_one)
        (by linarith)
    · exact le_trans (min_le_left _ _) (min_le_right _ _)
  · unfold get_schedule
    rw [cooldownFactor_warmup W B S CT f hCT hnW,
      cooldownFactor_warmup W B S CT f hCT (le_trans hmn hnW)]
    have hdiv : (m : ℝ) / W ≤ (n : ℝ) / W := by
      have : (m : ℝ) ≤ (n : ℝ) := by exact_mod_cast hmn
      exact div_le_div_of_nonneg_right this hWpos.le
    exact min_le_min (min_le_min hdiv le_rfl) le_rfl
  · unfold get_schedule
    have hwm : min ((m : ℝ) / W) 1 = 1 := by
      refine min_eq_right ((one_le_div hWpos).mpr ?_)
      exact_mod_cast hWm
    have hwn : min ((n : ℝ) / W) 1 = 1 := by
      refine min_eq_right ((one_le_div hWpos).mpr ?_)
      exact_mod_cast le_trans hWm hmn
    obtain ⟨_, hcfm1⟩ := cooldownFactor_mem W B S CT f hCT hf0 hf1 m
    obtain ⟨_, hcfn1⟩ := cooldownFactor_mem W B S CT f hCT hf0 hf1 n
    rw [hwm, hwn, min_eq_right hcfm1, min_eq_right hcfn1]
    exact cooldownFactor_antitone W B S CT f hCT hf1 hmn
  · unfold get_schedule
    rw [cooldownFactor_end W B S CT f hCT hn]
    have hWn : (W : ℝ) ≤ (n : ℝ) := by
      by_contra hcon
      push_neg at hcon
      have : (n : ℝ) * B * S < (W : ℝ) * B * S := by
        rw [mul_assoc, mul_assoc]
        exact mul_lt_mul_of_pos_right hcon hBS
      linarith
    rw [min_eq_right ((one_le_div hWpos).mpr hWn), min_eq_right hf1]

theorem get_schedule_spec_witness :
    (1 ≤ 1 ∧ (0:ℝ) ≤ 1/2 ∧ (1/2 : ℝ) ≤ 1 ∧ ((1:ℕ) : ℝ) * (1:ℕ) * (1:ℕ) < 2) ∧
    (∀ n : ℕ, 0 ≤ get_schedule 1 1 1 2 (1/2) n ∧ get_schedule 1 1 1 2 (1/2) n ≤ 1) :=
  ⟨⟨le_refl 1, by norm_num, by norm_num, by norm_num⟩,
   (get_schedule_spec 1 1 1 2 (1/2) (le_refl 1) (le_refl 1) (le_refl 1)
     (by norm_num) (by norm_num) (by norm_num)).2.1⟩

end MemoryTransformer
